import Mathlib

/-!
Verification development for the retrieval and relationship-discovery engine of
the apple-docs-mcp-server repository (`search-engine.js`, class `AppleSearchEngine`).

The JavaScript source is shallowly embedded in Lean:
* IEEE-754 doubles are idealised as exact ordered-field arithmetic; the primary
  search pipeline (which only compares and thresholds scores) is stated over an
  arbitrary `LinearOrderedField`, while the similarity primitives (which take a
  square root) are stated over `ℝ` with `Real.sqrt`.
* JavaScript strings are modelled as Lean `String` / `List Char`; the regular
  expressions appearing in the source are hand-compiled to explicit character
  scanners that follow the semantics of the JavaScript regex engine (greedy or
  lazy quantifiers with backtracking, global non-overlapping scan).
* Thrown exceptions are modelled with `Except String`; a JavaScript
  `try { … } catch { return x }` becomes a `match` that maps `.error` to `x`.
* The SQLite store is modelled as a record of table reads that may fail; the
  `WHERE … IN / NOT IN` clauses built by the engine are modelled as list
  filters over the rows a read returns.
-/

namespace AppleDocs

set_option linter.unusedVariables false

/-! ## String helpers (models of JavaScript string primitives) -/

/-- Model of `String.prototype.includes` on character lists: `pat` occurs as a
contiguous substring of `cs`. -/
def containsSubAux : List Char → List Char → Bool
  | [], pat => pat.isEmpty
  | c :: rest, pat => pat.isPrefixOf (c :: rest) || containsSubAux rest pat

/-- Model of the JavaScript test `s.includes(pat)`. -/
def containsSub (s pat : String) : Bool :=
  containsSubAux s.data pat.data

/-- Model of `String.prototype.toLowerCase` (ASCII case folding, which is all
the source relies on). -/
def strToLower (s : String) : String :=
  ⟨s.data.map Char.toLower⟩

/-- Whitespace predicate modelling the JavaScript `\s` class on the ASCII
characters that occur in the corpus (space, tab, carriage return, newline). -/
def isWs (c : Char) : Bool :=
  c.isWhitespace

/-- Trim on character lists, modelling `String.prototype.trim`. -/
def trimChars (cs : List Char) : List Char :=
  ((cs.dropWhile isWs).reverse.dropWhile isWs).reverse

/-- Model of the JavaScript expression `s.trim()`. -/
def strTrim (s : String) : String :=
  ⟨trimChars s.data⟩

/-- Number of pieces produced by `s.split(re)` when `re` matches exactly the
single characters satisfying `sep` (used for `split('\n')` and
`split(/[,\n]/)`, whose matches are single characters and cannot overlap). -/
def splitCountBy (sep : Char → Bool) (cs : List Char) : Nat :=
  (cs.filter sep).length + 1

/-- Model of `code.split('\n').length`. -/
def lineCount (s : String) : Nat :=
  splitCountBy (fun c => c = '\n') s.data

/-! ## Primary search pipeline (`AppleSearchEngine.search`, lines 139–152)

The stages after corpus scoring: sort descending by similarity, filter by the
minimum-similarity floor, auto-relax the floor once if too few results
survive, truncate to `limit`.  `Array.prototype.sort` with the comparator
`(a, b) => b.similarity - a.similarity` is a stable descending sort
(ES2019 requires sort stability), modelled by a stable insertion sort. -/

/-- Scored search result: document fields plus a similarity score.  The
`compatibility` annotation attached by the out-of-core
`CompatibilityAnalyzer` companion component is elided (no claim concerns it). -/
structure ScoredDoc (α : Type) where
  id : String
  title : String
  url : String
  content : String
  similarity : α
deriving DecidableEq, Repr

/-- Stable descending insertion of one scored document (helper for the model
of the stable JavaScript sort). -/
def insertScoredDesc {α : Type} [LinearOrder α] (d : ScoredDoc α) :
    List (ScoredDoc α) → List (ScoredDoc α)
  | [] => [d]
  | x :: xs =>
    if x.similarity ≤ d.similarity then d :: x :: xs else x :: insertScoredDesc d xs

/-- Model of `resultsWithSimilarity.sort((a, b) => b.similarity - a.similarity)`:
stable sort, descending by similarity. -/
def sortScoredDesc {α : Type} [LinearOrder α] (l : List (ScoredDoc α)) :
    List (ScoredDoc α) :=
  l.foldr insertScoredDesc []

/-- Model of `AppleSearchEngine.search` after corpus scoring (source lines
139–152): sort, filter at `minSimilarity`, auto-relax once to
`max(0.2, minSimilarity - 0.1)` when fewer than `min(3, limit)` results
survive and the floor is above `0.2`, then `slice(0, limit)`. -/
def searchPipeline {α : Type} [LinearOrderedField α]
    (scored : List (ScoredDoc α)) (limit : Nat) (minSimilarity : α) :
    List (ScoredDoc α) :=
  let sortedResults := sortScoredDesc scored
  let filteredResults := sortedResults.filter (fun doc => minSimilarity ≤ doc.similarity)
  let finalResults :=
    if filteredResults.length < min 3 limit ∧ (0.2 : α) < minSimilarity then
      sortedResults.filter
        (fun doc => max (0.2 : α) (minSimilarity - 0.1) ≤ doc.similarity)
    else filteredResults
  finalResults.take limit

/-- C1: whenever the initial floor-filtered result count is smaller than
`min(3, limit)` and the floor is above `0.2`, the primary search re-filters
the full sorted score list exactly once at threshold
`max(0.2, floor - 0.1)`, and the final output is that relaxed filtered list
truncated to `limit` (no second relaxation happens). -/
theorem search_autoRelax_once {α : Type} [LinearOrderedField α]
    (scored : List (ScoredDoc α)) (limit : Nat) (minSimilarity : α)
    (hcount : ((sortScoredDesc scored).filter
        (fun doc => minSimilarity ≤ doc.similarity)).length < min 3 limit)
    (hfloor : (0.2 : α) < minSimilarity) :
    searchPipeline scored limit minSimilarity =
      ((sortScoredDesc scored).filter
        (fun doc => max (0.2 : α) (minSimilarity - 0.1) ≤ doc.similarity)).take limit := by
  simp only [searchPipeline]
  rw [if_pos ⟨hcount, hfloor⟩]

/-- Five-document corpus from the spec example, with similarities
`[0.9, 0.6, 0.5, 0.2, 0.1]`. -/
def c1Corpus : List (ScoredDoc ℚ) :=
  [⟨"d1", "t1", "u1", "b1", 0.9⟩, ⟨"d2", "t2", "u2", "b2", 0.6⟩,
   ⟨"d3", "t3", "u3", "b3", 0.5⟩, ⟨"d4", "t4", "u4", "b4", 0.2⟩,
   ⟨"d5", "t5", "u5", "b5", 0.1⟩]

/-- Witness for C1: with floor `0.55` only two documents survive, which is
below `min(3, 10)`, the relaxed threshold is exactly `0.45`, and the pipeline
returns the three documents scoring at least `0.45`. -/
theorem search_autoRelax_once_witness :
    (0.2 : ℚ) < 0.55 ∧
    ((sortScoredDesc c1Corpus).filter
        (fun doc => (0.55 : ℚ) ≤ doc.similarity)).length < min 3 10 ∧
    max (0.2 : ℚ) (0.55 - 0.1) = 0.45 ∧
    searchPipeline c1Corpus 10 0.55 =
      [⟨"d1", "t1", "u1", "b1", 0.9⟩, ⟨"d2", "t2", "u2", "b2", 0.6⟩,
       ⟨"d3", "t3", "u3", "b3", 0.5⟩] :=
  ⟨by norm_num,
   by norm_num [c1Corpus, sortScoredDesc, insertScoredDesc, List.filter],
   by norm_num,
   (search_autoRelax_once c1Corpus 10 0.55
      (by norm_num [c1Corpus, sortScoredDesc, insertScoredDesc, List.filter])
      (by norm_num)).trans
    (by norm_num [c1Corpus, sortScoredDesc, insertScoredDesc, List.filter])⟩

/-! ## Similarity primitives (`calculateCosineSimilarity`, lines 276–299, and
`computeCentroid`, lines 376–397)

The source loops once over the index range accumulating `dotProduct`, `normA²`
and `normB²`; the accumulated values are modelled by `dotProduct` and `sumSq`
below, floats idealised as real numbers and `Math.sqrt` as `Real.sqrt`. -/

/-- Accumulated value of `dotProduct += vectorA[i] * vectorB[i]` over the loop
(the loop runs only after the two lengths were checked equal). -/
def dotProduct (a b : List ℝ) : ℝ :=
  (List.zipWith (fun x y => x * y) a b).sum

/-- Accumulated value of `norm += vector[i] * vector[i]` over the loop, i.e.
the squared Euclidean norm. -/
def sumSq (a : List ℝ) : ℝ :=
  (a.map (fun x => x * x)).sum

/-- Model of `AppleSearchEngine.calculateCosineSimilarity`: throws
`'Vectors must have the same length'` when the lengths differ, returns `0`
when either square-rooted norm is `0`, and otherwise returns
`dotProduct / (normA * normB)`. -/
noncomputable def calculateCosineSimilarity (vectorA vectorB : List ℝ) :
    Except String ℝ :=
  if vectorA.length ≠ vectorB.length then
    .error "Vectors must have the same length"
  else
    let normA := Real.sqrt (sumSq vectorA)
    let normB := Real.sqrt (sumSq vectorB)
    if normA = 0 ∨ normB = 0 then .ok 0
    else .ok (dotProduct vectorA vectorB / (normA * normB))

/-- C5: cosine similarity fails with the dimension-mismatch error whenever the
two input vectors have different lengths, and for equal-length inputs where
either vector has norm zero it returns exactly `0`. -/
theorem cosine_mismatch_error_and_zero_norm (a b : List ℝ) :
    (a.length ≠ b.length →
      calculateCosineSimilarity a b = .error "Vectors must have the same length") ∧
    (a.length = b.length →
      Real.sqrt (sumSq a) = 0 ∨ Real.sqrt (sumSq b) = 0 →
      calculateCosineSimilarity a b = .ok 0) := by
  constructor
  · intro h
    simp [calculateCosineSimilarity, h]
  · intro h hz
    simp [calculateCosineSimilarity, h, hz]

/-- Witness for C5: `[1]` against `[1, 2]` yields the dimension-mismatch
error, and the zero vector `[0, 0]` against `[3, 4]` yields exactly `0`. -/
theorem cosine_mismatch_error_and_zero_norm_witness :
    (([1] : List ℝ).length ≠ ([1, 2] : List ℝ).length ∧
      calculateCosineSimilarity [1] [1, 2] = .error "Vectors must have the same length") ∧
    (([0, 0] : List ℝ).length = ([3, 4] : List ℝ).length ∧
      Real.sqrt (sumSq [0, 0]) = 0 ∧
      calculateCosineSimilarity [0, 0] [3, 4] = .ok 0) :=
  ⟨⟨by simp, (cosine_mismatch_error_and_zero_norm [1] [1, 2]).1 (by simp)⟩,
   ⟨rfl, by simp [sumSq],
    (cosine_mismatch_error_and_zero_norm [0, 0] [3, 4]).2 rfl
      (Or.inl (by simp [sumSq]))⟩⟩

/-- C9: cosine similarity is symmetric for every pair of equal-length vectors. -/
theorem cosine_symmetric (a b : List ℝ) (h : a.length = b.length) :
    calculateCosineSimilarity a b = calculateCosineSimilarity b a := by
  have hdot : dotProduct a b = dotProduct b a := by
    unfold dotProduct
    rw [List.zipWith_comm_of_comm]
    intro x y
    exact mul_comm x y
  have hlen1 : ¬ (a.length ≠ b.length) := by simp [h]
  have hlen2 : ¬ (b.length ≠ a.length) := by simp [h]
  unfold calculateCosineSimilarity
  rw [if_neg hlen1, if_neg hlen2]
  simp only []
  by_cases hz : Real.sqrt (sumSq a) = 0 ∨ Real.sqrt (sumSq b) = 0
  · rw [if_pos hz, if_pos hz.symm]
  · rw [if_neg hz, if_neg (fun hq => hz hq.symm)]
    rw [hdot, mul_comm]

/-- Witness for C9 at the concrete pair `[1, 2]`, `[3, 4]`. -/
theorem cosine_symmetric_witness :
    ([1, 2] : List ℝ).length = ([3, 4] : List ℝ).length ∧
    calculateCosineSimilarity [1, 2] [3, 4] = calculateCosineSimilarity [3, 4] [1, 2] :=
  ⟨rfl, cosine_symmetric [1, 2] [3, 4] rfl⟩

/-- Model of `AppleSearchEngine.computeCentroid` on the vectors carried by the
embedding records: `null` (modelled as `none`) on an empty input, otherwise
the vector whose `i`-th component is the sum of the `i`-th components divided
by the number of vectors, with the dimension taken from the first vector.
(The source indexes every vector up to that dimension; `getD _ 0` agrees with
it on the same-length inputs the claims quantify over.) -/
noncomputable def computeCentroid (embeddings : List (List ℝ)) : Option (List ℝ) :=
  match embeddings with
  | [] => none
  | v0 :: _ =>
    some ((List.range v0.length).map (fun i =>
      (embeddings.map (fun v => v.getD i 0)).sum / (embeddings.length : ℝ)))

/-- C6: the centroid of a non-empty list of same-length vectors is the
element-wise mean, and the centroid of the empty list is the `EmptyInput`
failure (the source's `null` return, modelled as `none`). -/
theorem computeCentroid_spec :
    computeCentroid [] = none ∧
    ∀ (vs : List (List ℝ)) (n : Nat), vs ≠ [] → (∀ v ∈ vs, v.length = n) →
      computeCentroid vs = some ((List.range n).map (fun i =>
        (vs.map (fun v => v.getD i 0)).sum / (vs.length : ℝ))) := by
  constructor
  · rfl
  · intro vs n hne hlen
    match vs, hne with
    | v0 :: rest, _ =>
      simp only [computeCentroid]
      rw [hlen v0 (by simp)]

/-- Witness for C6: the centroid of `[[1,0],[0,1]]` is `[0.5, 0.5]`. -/
theorem computeCentroid_spec_witness :
    computeCentroid [[1, 0], [0, 1]] = some [1/2, 1/2] := by
  have h := computeCentroid_spec.2 [[1, 0], [0, 1]] 2 (by simp)
    (by intro v hv; fin_cases hv <;> rfl)
  rw [h]
  norm_num [List.range_succ]

/-! ## Relationship classification (`determineRelationshipType`, lines 460–511,
and `isApiReference`, lines 514–520) -/

/-- Word-character predicate modelling the JavaScript `\w` class
(`[A-Za-z0-9_]`; `Char.isAlphanum` is the same ASCII class). -/
def isWordChar (c : Char) : Bool :=
  c.isAlphanum || c = '_'

/-- Scanner counting the matches of the global regex
`/```[\s\S]*?```/g`: the lazy body pairs each opening fence with the earliest
following fence, which a left-to-right scan pairing fence occurrences
reproduces. -/
def countFencedAux : List Char → Bool → Nat
  | '`' :: '`' :: '`' :: rest, inside =>
    (if inside then 1 else 0) + countFencedAux rest (!inside)
  | _ :: rest, inside => countFencedAux rest inside
  | [], _ => 0

/-- Number of fenced code blocks found in `content` by
`content.match(/```[\s\S]*?```/g)`. -/
def countFenced (content : String) : Nat :=
  countFencedAux content.data false

/-- The keyword alternation of the regex `\b(struct|class|protocol|enum)\s+\w+`. -/
def typeKeywords : List (List Char) :=
  ["struct".data, "class".data, "protocol".data, "enum".data]

/-- Attempt to match `(struct|class|protocol|enum)\s+\w+` at the current
position; on success return the remainder after the greedy `\s+\w+`
(the position the global regex scan resumes from). -/
def typeDeclMatchAt (cs : List Char) : Option (List Char) :=
  match typeKeywords.find? (fun kw => kw.isPrefixOf cs) with
  | none => none
  | some kw =>
    let r1 := cs.drop kw.length
    let ws := r1.takeWhile isWs
    if ws.isEmpty then none
    else
      let r2 := r1.dropWhile isWs
      let w := r2.takeWhile isWordChar
      if w.isEmpty then none
      else some (r2.drop w.length)

/-- Fueled scanner counting the global matches of
`/\b(struct|class|protocol|enum)\s+\w+/g`; `prevIsWord` tracks whether the
previous character was a word character (realising the `\b` boundary). -/
def structCountAux : Nat → List Char → Bool → Nat
  | 0, _, _ => 0
  | _ + 1, [], _ => 0
  | fuel + 1, c :: rest, prevIsWord =>
    if prevIsWord then structCountAux fuel rest (isWordChar c)
    else
      match typeDeclMatchAt (c :: rest) with
      | some rem => 1 + structCountAux fuel rem true
      | none => structCountAux fuel rest (isWordChar c)

/-- Number of matches of `content.match(/\b(struct|class|protocol|enum)\s+\w+/g)`. -/
def structCount (content : String) : Nat :=
  structCountAux content.data.length content.data false

/-- Model of `AppleSearchEngine.isApiReference`: at least 3 fenced code
blocks, or at least 2 type-declaration keyword matches. -/
def isApiReference (content : String) : Bool :=
  countFenced content ≥ 3 || structCount content ≥ 2

/-- Rule 1 condition of the classifier: the (lower-cased) candidate title
contains one of the migration/transition terms. -/
def hasMigrationTerm (candidateTitle : String) : Bool :=
  containsSub candidateTitle "bringing" || containsSub candidateTitle "migrat" ||
  containsSub candidateTitle "converting" || containsSub candidateTitle "transition"

/-- The eight relationship labels, in the priority order of the rules. -/
def relationshipLabels : List String :=
  ["🔄 Migration Guide", "🆕 Modern Alternative", "⚡ Performance Guide",
   "📋 Code Example", "🔧 Low-Level Implementation", "📚 API Reference",
   "🎯 Platform Specific", "🔗 Related Topic"]

/-- Model of `AppleSearchEngine.determineRelationshipType`: the eight
first-match-wins rules, evaluated against the lower-cased candidate
title/content, the lower-cased main-result titles, and the lower-cased
query.  (As in the source, the lower-cased content is computed but rule 6
inspects the raw `candidate.content`.) -/
def determineRelationshipType {α : Type} (candidate : ScoredDoc α)
    (mainResults : List (ScoredDoc α)) (originalQuery : String) : String :=
  let candidateTitle := strToLower candidate.title
  let candidateContent := strToLower candidate.content
  let mainTitles := mainResults.map (fun r => strToLower r.title)
  let queryLower := strToLower originalQuery
  if hasMigrationTerm candidateTitle then "🔄 Migration Guide"
  else if (mainTitles.any (fun t => containsSub t "scenekit") && containsSub candidateTitle "realitykit") ||
      (mainTitles.any (fun t => containsSub t "uikit") && containsSub candidateTitle "swiftui") ||
      (mainTitles.any (fun t => containsSub t "core animation") && containsSub candidateTitle "swiftui") then
    "🆕 Modern Alternative"
  else if containsSub candidateTitle "performance" || containsSub candidateTitle "optimiz" ||
      containsSub candidateTitle "efficient" || containsSub candidateTitle "faster" then
    "⚡ Performance Guide"
  else if containsSub candidateTitle "sample" || containsSub candidateTitle "demo" ||
      containsSub candidateTitle "example" || containsSub candidateTitle "tutorial" then
    "📋 Code Example"
  else if (containsSub queryLower "realitykit" && containsSub candidateTitle "metal") ||
      (containsSub queryLower "swiftui" && containsSub candidateTitle "core animation") ||
      (containsSub queryLower "core image" && containsSub candidateTitle "metal") then
    "🔧 Low-Level Implementation"
  else if isApiReference candidate.content then "📚 API Reference"
  else if containsSub candidateTitle "visionos" || containsSub candidateTitle "macos" ||
      containsSub candidateTitle "ios" || containsSub candidateTitle "tvos" then
    "🎯 Platform Specific"
  else "🔗 Related Topic"

/-- C4: relationship classification is total — every candidate receives
exactly one of the eight defined labels — and rule 1 (migration/transition
term in the title) takes priority over rule 6 (API-reference structure)
whenever both match. -/
theorem determineRelationshipType_total_and_rule1_priority {α : Type}
    (candidate : ScoredDoc α) (mainResults : List (ScoredDoc α))
    (originalQuery : String) :
    determineRelationshipType candidate mainResults originalQuery ∈ relationshipLabels ∧
    (hasMigrationTerm (strToLower candidate.title) = true →
      isApiReference candidate.content = true →
      determineRelationshipType candidate mainResults originalQuery = "🔄 Migration Guide") := by
  constructor
  · simp only [determineRelationshipType]
    split_ifs <;> decide
  · intro h1 _
    simp only [determineRelationshipType]
    simp [h1]

/-- Witness for C4: a candidate whose title contains a migration term and
whose content has the API-reference structure (two type declarations) is
labelled Migration Guide. -/
theorem determineRelationshipType_priority_witness :
    hasMigrationTerm (strToLower "Migrating to RealityKit") = true ∧
    isApiReference "struct A1 y struct B2 y" = true ∧
    determineRelationshipType (α := ℚ)
      ⟨"c1", "Migrating to RealityKit", "u", "struct A1 y struct B2 y", 0⟩
      [] "q" = "🔄 Migration Guide" :=
  ⟨by decide, by decide,
   (determineRelationshipType_total_and_rule1_priority
      ⟨"c1", "Migrating to RealityKit", "u", "struct A1 y struct B2 y", 0⟩
      [] "q").2 (by decide) (by decide)⟩

/-! ## Vector store access and related-document discovery
(`findRelatedDocuments`, lines 302–351; `getEmbeddingsFromDB`, lines 354–373;
`findSimilarByEmbedding`, lines 400–445; `classifyRelationships`, lines
448–457) -/

/-- A row of the `documents JOIN embeddings` query, with the embedding BLOB
already decoded to its vector (`blobToFloat32Array`). -/
structure CorpusRow where
  id : String
  title : String
  url : String
  content : String
  embedding : List ℝ

/-- An `{id, vector}` record as returned by `getEmbeddingsFromDB`. -/
structure EmbRow where
  id : String
  vector : List ℝ

/-- Model of the SQLite store: each table read either returns its rows or
fails (`better-sqlite3` throwing).  The `WHERE id IN …` and
`WHERE d.id NOT IN …` clauses that the engine interpolates into its SQL are
modelled as list filters over the returned rows at the call sites. -/
structure Store where
  embTable : Except String (List EmbRow)
  docTable : Except String (List CorpusRow)

/-- Model of `AppleSearchEngine.getEmbeddingsFromDB`: reads the embedding
rows whose id is among the given results' ids; the `catch` swallows a store
failure and returns `[]`. -/
def getEmbeddingsFromDB (store : Store) (results : List (ScoredDoc ℝ)) :
    List EmbRow :=
  if results.isEmpty then []
  else
    let ids := results.map (fun r => r.id)
    match store.embTable with
    | .error _ => []
    | .ok rows => rows.filter (fun e => ids.contains e.id)

/-- The `allDocuments.map(doc => … calculateCosineSimilarity …)` pass of
`findSimilarByEmbedding`; a dimension mismatch throws out of the map, which
the model renders as the first `.error`. -/
noncomputable def scoreRows (queryVector : List ℝ) :
    List CorpusRow → Except String (List (ScoredDoc ℝ))
  | [] => .ok []
  | row :: rest =>
    match calculateCosineSimilarity queryVector row.embedding with
    | .error e => .error e
    | .ok s =>
      match scoreRows queryVector rest with
      | .error e => .error e
      | .ok docs => .ok (⟨row.id, row.title, row.url, row.content, s⟩ :: docs)

/-- Model of `AppleSearchEngine.findSimilarByEmbedding`: a `null` query
vector returns `[]`; otherwise read the corpus excluding the used ids
(`WHERE d.id NOT IN …`), score each row against the query vector, filter by
the threshold, sort descending, truncate to `limit`; any thrown store or
similarity error is caught and becomes `[]`. -/
noncomputable def findSimilarByEmbedding (store : Store) :
    Option (List ℝ) → List String → ℝ → Nat → List (ScoredDoc ℝ)
  | none, _, _, _ => []
  | some queryVector, excludeIds, threshold, limit =>
    match store.docTable with
    | .error _ => []
    | .ok rows =>
      let allDocuments := rows.filter (fun d => !excludeIds.contains d.id)
      match scoreRows queryVector allDocuments with
      | .error _ => []
      | .ok scored =>
        (sortScoredDesc (scored.filter (fun doc => threshold ≤ doc.similarity))).take limit

/-- The adaptive-threshold computation of `findRelatedDocuments` (lines
326–333): base `0.45`, raised to `0.48` when the average main-result
similarity exceeds `0.6`, lowered to `0.42` when it is below `0.4`. -/
noncomputable def relatedThresholdCode (avgMainSimilarity : ℝ) : ℝ :=
  if avgMainSimilarity > 0.6 then 0.48
  else if avgMainSimilarity < 0.4 then 0.42
  else 0.45

/-- A scored candidate together with its classified relationship label. -/
structure RelatedDoc (α : Type) extends ScoredDoc α where
  relationship : String

/-- Model of `AppleSearchEngine.classifyRelationships` (its early return on
an empty candidate list coincides with mapping over the empty list). -/
def classifyRelationships {α : Type} (candidates : List (ScoredDoc α))
    (mainResults : List (ScoredDoc α)) (originalQuery : String) :
    List (RelatedDoc α) :=
  candidates.map (fun candidate =>
    ⟨candidate, determineRelationshipType candidate mainResults originalQuery⟩)

/-- Model of `AppleSearchEngine.findRelatedDocuments`.  The whole body sits
in a `try` whose `catch` returns `[]`; every inner store failure is already
caught by the callees (each surfacing as an empty list), so the operation
always returns `.ok`. -/
noncomputable def findRelatedDocuments (store : Store)
    (mainResults : List (ScoredDoc ℝ)) (originalQuery : String) :
    Except String (List (RelatedDoc ℝ)) :=
  if mainResults.isEmpty then .ok []
  else
    let usedIds := mainResults.map (fun r => r.id)
    let topResults := mainResults.take 3
    let embeddings := getEmbeddingsFromDB store topResults
    if embeddings.isEmpty then .ok []
    else
      let centroid := computeCentroid (embeddings.map (fun e => e.vector))
      let avgMainSimilarity :=
        (mainResults.map (fun r => r.similarity)).sum / (mainResults.length : ℝ)
      let relatedThreshold := relatedThresholdCode avgMainSimilarity
      let relatedDocs := findSimilarByEmbedding store centroid usedIds relatedThreshold 10
      let classifiedDocs := classifyRelationships relatedDocs mainResults originalQuery
      .ok (classifiedDocs.take 6)

/-- Membership in the stable descending insertion. -/
theorem mem_insertScoredDesc {α : Type} [LinearOrder α] {d x : ScoredDoc α}
    {l : List (ScoredDoc α)} (hx : x ∈ insertScoredDesc d l) : x = d ∨ x ∈ l := by
  induction l with
  | nil =>
    rw [insertScoredDesc] at hx
    exact Or.inl (List.mem_singleton.mp hx)
  | cons y ys ih =>
    rw [insertScoredDesc] at hx
    by_cases hc : y.similarity ≤ d.similarity
    · rw [if_pos hc] at hx
      exact List.mem_cons.mp hx
    · rw [if_neg hc] at hx
      rcases List.mem_cons.mp hx with h | h
      · exact Or.inr (h ▸ List.mem_cons_self _ _)
      · rcases ih h with h1 | h1
        · exact Or.inl h1
        · exact Or.inr (List.mem_cons_of_mem _ h1)

/-- The stable descending sort produces a sublist of its input
(membership-wise). -/
theorem mem_sortScoredDesc {α : Type} [LinearOrder α] {x : ScoredDoc α}
    {l : List (ScoredDoc α)} (hx : x ∈ sortScoredDesc l) : x ∈ l := by
  induction l with
  | nil => simp [sortScoredDesc] at hx
  | cons y ys ih =>
    rw [sortScoredDesc, List.foldr_cons] at hx
    rcases mem_insertScoredDesc hx with h | h
    · exact h ▸ List.mem_cons_self _ _
    · exact List.mem_cons_of_mem _ (ih h)

/-- Every scored document produced by the similarity pass carries the id of
one of the scanned rows. -/
theorem scoreRows_mem (qv : List ℝ) (rows : List CorpusRow)
    (scored : List (ScoredDoc ℝ)) (h : scoreRows qv rows = .ok scored) :
    ∀ x ∈ scored, ∃ row ∈ rows, x.id = row.id := by
  induction rows generalizing scored with
  | nil =>
    simp only [scoreRows] at h
    cases h
    simp
  | cons row rest ih =>
    simp only [scoreRows] at h
    cases hc : calculateCosineSimilarity qv row.embedding with
    | error e => rw [hc] at h; cases h
    | ok s =>
      rw [hc] at h
      cases hr : scoreRows qv rest with
      | error e => rw [hr] at h; cases h
      | ok docs =>
        rw [hr] at h
        cases h
        intro x hx
        rcases List.mem_cons.mp hx with h1 | h1
        · exact ⟨row, List.mem_cons_self _ _, by rw [h1]⟩
        · rcases ih docs hr x h1 with ⟨r2, hr2, hid⟩
          exact ⟨r2, List.mem_cons_of_mem _ hr2, hid⟩

/-- Candidates returned by `findSimilarByEmbedding` never carry an excluded
id (the `NOT IN` clause of the corpus scan). -/
theorem findSimilarByEmbedding_excludes (store : Store) (qv : Option (List ℝ))
    (excludeIds : List String) (threshold : ℝ) (limit : Nat) :
    ∀ c ∈ findSimilarByEmbedding store qv excludeIds threshold limit,
      c.id ∉ excludeIds := by
  intro c hc
  cases qv with
  | none => simp [findSimilarByEmbedding] at hc
  | some v =>
    rw [findSimilarByEmbedding] at hc
    cases hdoc : store.docTable with
    | error e => rw [hdoc] at hc; simp at hc
    | ok rows =>
      rw [hdoc] at hc
      simp only [] at hc
      cases hs : scoreRows v (rows.filter (fun d => !excludeIds.contains d.id)) with
      | error e => rw [hs] at hc; simp at hc
      | ok scored =>
        rw [hs] at hc
        have hmem : c ∈ sortScoredDesc
            (scored.filter (fun doc => threshold ≤ doc.similarity)) :=
          List.take_subset _ _ hc
        have hmem2 := mem_sortScoredDesc hmem
        have hmem3 := List.mem_of_mem_filter hmem2
        rcases scoreRows_mem v _ scored hs c hmem3 with ⟨row, hrow, hid⟩
        have hrowf := List.mem_filter.mp hrow
        intro hcid
        rw [hid] at hcid
        have hfalse : excludeIds.contains row.id = false := by
          simpa using hrowf.2
        simp [List.contains, hcid] at hfalse

/-- C2: related-document discovery always returns normally with at most 6
results, and no returned result's identifier equals the identifier of any
input result. -/
theorem findRelatedDocuments_cap_and_exclusion (store : Store)
    (mainResults : List (ScoredDoc ℝ)) (originalQuery : String) :
    ∃ l, findRelatedDocuments store mainResults originalQuery = .ok l ∧
      l.length ≤ 6 ∧ ∀ r ∈ l, r.id ∉ mainResults.map (fun m => m.id) := by
  by_cases hempty : mainResults.isEmpty
  · exact ⟨[], by rw [findRelatedDocuments, if_pos hempty], by simp, by simp⟩
  · by_cases hemb : (getEmbeddingsFromDB store (mainResults.take 3)).isEmpty
    · refine ⟨[], ?_, by simp, by simp⟩
      rw [findRelatedDocuments, if_neg hempty]
      simp only []
      rw [if_pos hemb]
    · have heq : findRelatedDocuments store mainResults originalQuery =
          .ok ((classifyRelationships
            (findSimilarByEmbedding store
              (computeCentroid ((getEmbeddingsFromDB store (mainResults.take 3)).map
                (fun e => e.vector)))
              (mainResults.map (fun r => r.id))
              (relatedThresholdCode
                ((mainResults.map (fun r => r.similarity)).sum / (mainResults.length : ℝ)))
              10)
            mainResults originalQuery).take 6) := by
        rw [findRelatedDocuments, if_neg hempty]
        simp only []
        rw [if_neg hemb]
      refine ⟨_, heq, List.length_take_le _ _, ?_⟩
      intro r hr
      have hr2 := List.take_subset _ _ hr
      rcases List.mem_map.mp hr2 with ⟨cand, hcand, hrc⟩
      have hid : r.id = cand.id := by rw [← hrc]
      rw [hid]
      exact findSimilarByEmbedding_excludes store _ _ _ _ cand hcand

/-- Witness-style instance of C2 at a concrete store (not required — the
theorem has no hypotheses — but kept as a sanity check): with an empty main
result list the discovery returns `.ok []`. -/
theorem findRelatedDocuments_empty_input (store : Store) :
    findRelatedDocuments store [] "q" = .ok [] :=
  rfl

/-- C3: the adaptive threshold of related-document discovery is the
three-tier function of exactly the average input similarity: `0.48` when
the average exceeds `0.6`, `0.42` when it is below `0.4`, and `0.45`
otherwise — no interpolation. -/
theorem relatedThreshold_tiers (avg : ℝ) :
    (avg > 0.6 → relatedThresholdCode avg = 0.48) ∧
    (avg < 0.4 → relatedThresholdCode avg = 0.42) ∧
    (0.4 ≤ avg → avg ≤ 0.6 → relatedThresholdCode avg = 0.45) := by
  refine ⟨fun h => ?_, fun h => ?_, fun h1 h2 => ?_⟩
  · rw [relatedThresholdCode, if_pos h]
  · rw [relatedThresholdCode, if_neg (by simp only [not_lt]; linarith), if_pos h]
  · rw [relatedThresholdCode, if_neg (by simp only [not_lt]; linarith),
      if_neg (by simp only [not_lt]; linarith)]

/-- Witness for C3 at the three representative averages `0.7`, `0.3`, `0.5`. -/
theorem relatedThreshold_tiers_witness :
    ((0.7 : ℝ) > 0.6 ∧ relatedThresholdCode 0.7 = 0.48) ∧
    ((0.3 : ℝ) < 0.4 ∧ relatedThresholdCode 0.3 = 0.42) ∧
    ((0.4 : ℝ) ≤ 0.5 ∧ (0.5 : ℝ) ≤ 0.6 ∧ relatedThresholdCode 0.5 = 0.45) :=
  ⟨⟨by norm_num, (relatedThreshold_tiers 0.7).1 (by norm_num)⟩,
   ⟨by norm_num, (relatedThreshold_tiers 0.3).2.1 (by norm_num)⟩,
   ⟨by norm_num, by norm_num,
    (relatedThreshold_tiers 0.5).2.2 (by norm_num) (by norm_num)⟩⟩

/-- A store whose reads always fail (`better-sqlite3` throwing on every
statement). -/
def failingStore : Store :=
  ⟨.error "SQLITE_ERROR", .error "SQLITE_ERROR"⟩

/-- C8 counterexample: with a failing store and a non-empty input,
related-document discovery returns the normal result `.ok []` instead of
propagating the store failure as an error, refuting the universal
propagation claim. -/
theorem storeFailure_not_propagated_counterexample :
    ¬ (∀ (store : Store) (mainResults : List (ScoredDoc ℝ))
        (originalQuery : String) (e : String), mainResults ≠ [] →
        store.embTable = .error e →
        ∃ e2, findRelatedDocuments store mainResults originalQuery = .error e2) := by
  intro h
  rcases h failingStore [⟨"doc-1", "t", "u", "c", 0⟩] "q" "SQLITE_ERROR"
      (by simp) rfl with ⟨e2, he2⟩
  rw [show findRelatedDocuments failingStore [⟨"doc-1", "t", "u", "c", 0⟩] "q" =
      .ok [] from rfl] at he2
  cases he2

/-- A corpus-scan failure makes `findSimilarByEmbedding` return `[]` — the
catch at source lines 441–444. -/
theorem findSimilarByEmbedding_docTable_error (store : Store)
    (qv : Option (List ℝ)) (excludeIds : List String) (threshold : ℝ)
    (limit : Nat) (e : String) (hfail : store.docTable = .error e) :
    findSimilarByEmbedding store qv excludeIds threshold limit = [] := by
  cases qv with
  | none => rfl
  | some v =>
    rw [findSimilarByEmbedding, hfail]

/-- C8 amended: a store failure inside related-document discovery — whether
the embedding fetch (`getEmbeddingsFromDB`) or the corpus scan
(`findSimilarByEmbedding`) fails — is caught and surfaces as the normal
result `.ok []`, never as an error. -/
theorem storeFailure_swallowed (store : Store) (mainResults : List (ScoredDoc ℝ))
    (originalQuery : String) (e : String) (hne : mainResults ≠ [])
    (hfail : store.embTable = .error e ∨ store.docTable = .error e) :
    findRelatedDocuments store mainResults originalQuery = .ok [] := by
  have hempty : ¬ (mainResults.isEmpty = true) := by
    simp [List.isEmpty_iff, hne]
  rcases hfail with hfail | hfail
  · rw [findRelatedDocuments, if_neg hempty]
    have hemb : getEmbeddingsFromDB store (mainResults.take 3) = [] := by
      rw [getEmbeddingsFromDB]
      by_cases ht : (mainResults.take 3).isEmpty
      · rw [if_pos ht]
      · rw [if_neg ht]
        simp only [hfail]
    simp only [hemb]
    rfl
  · rw [findRelatedDocuments, if_neg hempty]
    simp only []
    by_cases hemb : (getEmbeddingsFromDB store (mainResults.take 3)).isEmpty
    · rw [if_pos hemb]
    · rw [if_neg hemb]
      rw [findSimilarByEmbedding_docTable_error store _ _ _ _ e hfail]
      rfl

/-- A store whose embedding read succeeds (one row) but whose corpus read
fails — the docTable-only failure mode. -/
def corpusFailingStore : Store :=
  ⟨.ok [⟨"doc-1", []⟩], .error "SQLITE_ERROR"⟩

/-- Witness for the amended C8, exercising both failure paths: a store whose
embedding read fails, and a store whose embedding read succeeds but whose
corpus scan fails, each yield the normal result `.ok []`. -/
theorem storeFailure_swallowed_witness :
    ([⟨"doc-1", "t", "u", "c", (0 : ℝ)⟩] : List (ScoredDoc ℝ)) ≠ [] ∧
    failingStore.embTable = .error "SQLITE_ERROR" ∧
    corpusFailingStore.docTable = .error "SQLITE_ERROR" ∧
    findRelatedDocuments failingStore [⟨"doc-1", "t", "u", "c", (0 : ℝ)⟩] "q" = .ok [] ∧
    findRelatedDocuments corpusFailingStore [⟨"doc-1", "t", "u", "c", (0 : ℝ)⟩] "q" = .ok [] :=
  ⟨by simp, rfl, rfl,
   storeFailure_swallowed failingStore [⟨"doc-1", "t", "u", "c", (0 : ℝ)⟩] "q"
     "SQLITE_ERROR" (by simp) (Or.inl rfl),
   storeFailure_swallowed corpusFailingStore [⟨"doc-1", "t", "u", "c", (0 : ℝ)⟩] "q"
     "SQLITE_ERROR" (by simp) (Or.inr rfl)⟩

/-! ## Code-format repair (`attemptCodeFormatFix`, lines 648–689)

Each global `String.replace(regex, replacement)` of the source is compiled to
a fueled left-to-right scanner over the character list: a scanner either
matches its pattern at the current position (emitting the replacement and
resuming after the match, as the JavaScript engine does — replacements are
not rescanned within one pass) or emits the current character and advances
one position.  The fuel is the input length plus one; every step consumes at
least one input character, so the fuel never runs out. -/

/-- Pass for `/{\s*,/g → '{\n'` (opening braces). -/
def fixOpenBraceComma : Nat → List Char → List Char
  | 0, cs => cs
  | _ + 1, [] => []
  | fuel + 1, c :: rest =>
    if c = '\x7b' then
      match rest.dropWhile isWs with
      | ',' :: rest3 => '\x7b' :: '\n' :: fixOpenBraceComma fuel rest3
      | _ => c :: fixOpenBraceComma fuel rest
    else c :: fixOpenBraceComma fuel rest

/-- Pass for `/,\s*}/g → '\n}'` (closing braces). -/
def fixCommaCloseBrace : Nat → List Char → List Char
  | 0, cs => cs
  | _ + 1, [] => []
  | fuel + 1, c :: rest =>
    if c = ',' then
      match rest.dropWhile isWs with
      | '\x7d' :: rest3 => '\n' :: '\x7d' :: fixCommaCloseBrace fuel rest3
      | _ => c :: fixCommaCloseBrace fuel rest
    else c :: fixCommaCloseBrace fuel rest

/-- Pass for `/\)\s*,\s*{/g → ') {\n'`. -/
def fixParenCommaBrace : Nat → List Char → List Char
  | 0, cs => cs
  | _ + 1, [] => []
  | fuel + 1, c :: rest =>
    if c = ')' then
      match rest.dropWhile isWs with
      | ',' :: rest2 =>
        match rest2.dropWhile isWs with
        | '\x7b' :: rest3 =>
          ')' :: ' ' :: '\x7b' :: '\n' :: fixParenCommaBrace fuel rest3
        | _ => c :: fixParenCommaBrace fuel rest
      | _ => c :: fixParenCommaBrace fuel rest
    else c :: fixParenCommaBrace fuel rest

/-- Pass for `/;\s*,/g → ';\n'` (semicolon line endings). -/
def fixSemicolonComma : Nat → List Char → List Char
  | 0, cs => cs
  | _ + 1, [] => []
  | fuel + 1, c :: rest =>
    if c = ';' then
      match rest.dropWhile isWs with
      | ',' :: rest3 => ';' :: '\n' :: fixSemicolonComma fuel rest3
      | _ => c :: fixSemicolonComma fuel rest
    else c :: fixSemicolonComma fuel rest

/-- Pass for the indentation rules `/,(\s{lo,hi})/g → '\n$1'`: a comma
followed by a whitespace run of at least `lo` characters; the greedy bounded
quantifier captures at most `hi` of them (unbounded when `hi` is `none`). -/
def fixCommaIndent (lo : Nat) (hi : Option Nat) : Nat → List Char → List Char
  | 0, cs => cs
  | _ + 1, [] => []
  | fuel + 1, c :: rest =>
    if c = ',' then
      let ws := rest.takeWhile isWs
      if lo ≤ ws.length then
        let takeN := match hi with | none => ws.length | some h => min h ws.length
        '\n' :: (rest.take takeN ++ fixCommaIndent lo hi fuel (rest.drop takeN))
      else c :: fixCommaIndent lo hi fuel rest
    else c :: fixCommaIndent lo hi fuel rest

/-- The keyword alternation of `/,\s*(let |var |func |class |struct |enum |import |@)/g`. -/
def swiftKeywordAlternatives : List (List Char) :=
  ["let ".data, "var ".data, "func ".data, "class ".data, "struct ".data,
   "enum ".data, "import ".data, "@".data]

/-- Pass for `/,\s*(let |…|@)/g → '\n$1'` (Swift keywords). -/
def fixCommaKeyword : Nat → List Char → List Char
  | 0, cs => cs
  | _ + 1, [] => []
  | fuel + 1, c :: rest =>
    if c = ',' then
      let rest2 := rest.dropWhile isWs
      match swiftKeywordAlternatives.find? (fun kw => kw.isPrefixOf rest2) with
      | some kw => '\n' :: (kw ++ fixCommaKeyword fuel (rest2.drop kw.length))
      | none => c :: fixCommaKeyword fuel rest
    else c :: fixCommaKeyword fuel rest

/-- Pass for `/,\s*(\.[a-zA-Z])/g → '\n    $1'` (method chaining). -/
def fixCommaDot : Nat → List Char → List Char
  | 0, cs => cs
  | _ + 1, [] => []
  | fuel + 1, c :: rest =>
    if c = ',' then
      match rest.dropWhile isWs with
      | '.' :: d :: rest3 =>
        if d.isAlpha then
          '\n' :: ' ' :: ' ' :: ' ' :: ' ' :: '.' :: d :: fixCommaDot fuel rest3
        else c :: fixCommaDot fuel rest
      | _ => c :: fixCommaDot fuel rest
    else c :: fixCommaDot fuel rest

/-- Pass for `/,\s*(\w+\()/g → '\n    $1'` (function calls). -/
def fixCommaCall : Nat → List Char → List Char
  | 0, cs => cs
  | _ + 1, [] => []
  | fuel + 1, c :: rest =>
    if c = ',' then
      let rest2 := rest.dropWhile isWs
      let w := rest2.takeWhile isWordChar
      if w.isEmpty then c :: fixCommaCall fuel rest
      else
        match rest2.drop w.length with
        | '(' :: rest3 =>
          '\n' :: ' ' :: ' ' :: ' ' :: ' ' :: (w ++ '(' :: fixCommaCall fuel rest3)
        | _ => c :: fixCommaCall fuel rest
    else c :: fixCommaCall fuel rest

/-- Pass for `/,\s*(\w+:)/g → '\n    $1'` (parameter labels). -/
def fixCommaLabel : Nat → List Char → List Char
  | 0, cs => cs
  | _ + 1, [] => []
  | fuel + 1, c :: rest =>
    if c = ',' then
      let rest2 := rest.dropWhile isWs
      let w := rest2.takeWhile isWordChar
      if w.isEmpty then c :: fixCommaLabel fuel rest
      else
        match rest2.drop w.length with
        | ':' :: rest3 =>
          '\n' :: ' ' :: ' ' :: ' ' :: ' ' :: (w ++ ':' :: fixCommaLabel fuel rest3)
        | _ => c :: fixCommaLabel fuel rest
    else c :: fixCommaLabel fuel rest

/-- Pass for `/\n\s*,/g → '\n'` (leading commas). -/
def fixNewlineComma : Nat → List Char → List Char
  | 0, cs => cs
  | _ + 1, [] => []
  | fuel + 1, c :: rest =>
    if c = '\n' then
      match rest.dropWhile isWs with
      | ',' :: rest3 => '\n' :: fixNewlineComma fuel rest3
      | _ => c :: fixNewlineComma fuel rest
    else c :: fixNewlineComma fuel rest

/-- Position of the last newline within a whitespace run (used for the
backtracking of a greedy `\s*` followed by a mandatory `\n`). -/
def lastNewlinePos (l : List Char) : Option Nat :=
  match l.reverse.findIdx? (fun c => c = '\n') with
  | none => none
  | some j => some (l.length - 1 - j)

/-- Pass for `/,\s*\n/g → '\n'` (trailing commas before newlines): the
greedy `\s*` backtracks to the last newline of the whitespace run. -/
def fixCommaNewline : Nat → List Char → List Char
  | 0, cs => cs
  | _ + 1, [] => []
  | fuel + 1, c :: rest =>
    if c = ',' then
      match lastNewlinePos (rest.takeWhile isWs) with
      | some k => '\n' :: fixCommaNewline fuel (rest.drop (k + 1))
      | none => c :: fixCommaNewline fuel rest
    else c :: fixCommaNewline fuel rest

/-- Pass for `/\n{3,}/g → '\n\n'` (excessive newlines). -/
def fixExcessNewlines : Nat → List Char → List Char
  | 0, cs => cs
  | _ + 1, [] => []
  | fuel + 1, c :: rest =>
    if c = '\n' then
      let run := rest.takeWhile (fun x => x = '\n')
      if 2 ≤ run.length then
        '\n' :: '\n' :: fixExcessNewlines fuel (rest.drop run.length)
      else c :: fixExcessNewlines fuel rest
    else c :: fixExcessNewlines fuel rest

/-- Phases 1–4 of `attemptCodeFormatFix`: the chained `replace` calls and the
final `trim()`. -/
def runFixPhases (code : String) : String :=
  let pass := fun (f : Nat → List Char → List Char) (cs : List Char) =>
    f (cs.length + 1) cs
  let cs := code.data
  let cs := pass fixOpenBraceComma cs
  let cs := pass fixCommaCloseBrace cs
  let cs := pass fixParenCommaBrace cs
  let cs := pass fixSemicolonComma cs
  let cs := pass (fixCommaIndent 8 none) cs
  let cs := pass (fixCommaIndent 4 (some 7)) cs
  let cs := pass (fixCommaIndent 2 (some 3)) cs
  let cs := pass fixCommaKeyword cs
  let cs := pass fixCommaDot cs
  let cs := pass fixCommaCall cs
  let cs := pass fixCommaLabel cs
  let cs := pass fixNewlineComma cs
  let cs := pass fixCommaNewline cs
  let cs := pass fixExcessNewlines cs
  ⟨trimChars cs⟩

/-- Model of `AppleSearchEngine.attemptCodeFormatFix`: return the block
unchanged when it contains no comma; otherwise run the staged substitutions,
and fall back to the naive `code.replace(/,/g, '\n').trim()` baseline when
the staged repair produced fewer than half as many lines as splitting on
commas and newlines would. -/
def attemptCodeFormatFix (code : String) : String :=
  if !containsSub code "," then code
  else
    let fixed := runFixPhases code
    let originalLines := splitCountBy (fun c => c = ',' || c = '\n') code.data
    let fixedLines := lineCount fixed
    if (fixedLines : ℚ) < (originalLines : ℚ) * 0.5 then
      strTrim ⟨code.data.map (fun c => if c = ',' then '\n' else c)⟩
    else fixed

/-- C7 counterexample: the well-formed block `"f(a, b: 1)\nlet y = 0"`
contains an internal newline, yet the repair step modifies it (the guard of
the repair only checks for commas, not for the absence of newlines), so
repair is not a no-op on every well-formed block containing newlines. -/
theorem formatFix_changes_newline_block_counterexample :
    containsSub "f(a, b: 1)\nlet y = 0" "\n" = true ∧
    attemptCodeFormatFix "f(a, b: 1)\nlet y = 0" ≠ "f(a, b: 1)\nlet y = 0" := by
  have heval : attemptCodeFormatFix "f(a, b: 1)\nlet y = 0" =
      "f(a\n    b: 1)\nlet y = 0" := by
    rw [attemptCodeFormatFix, if_neg (by decide)]
    simp only []
    rw [show runFixPhases "f(a, b: 1)\nlet y = 0" = "f(a\n    b: 1)\nlet y = 0" by decide]
    rw [show lineCount "f(a\n    b: 1)\nlet y = 0" = 3 by decide]
    rw [show splitCountBy (fun c => c = ',' || c = '\n') "f(a, b: 1)\nlet y = 0".data = 3
      by decide]
    rw [if_neg (by norm_num)]
  refine ⟨by decide, ?_⟩
  rw [heval]
  decide

/-- C7 amended: the repair step is a no-op exactly when the block contains no
comma; a block containing a comma may be rewritten even when it already
contains newlines. -/
theorem formatFix_noop_without_comma (code : String)
    (h : containsSub code "," = false) :
    attemptCodeFormatFix code = code := by
  rw [attemptCodeFormatFix, if_pos (by rw [h]; rfl)]

/-- Witness for the amended C7: a comma-free two-line block is returned
unchanged. -/
theorem formatFix_noop_without_comma_witness :
    containsSub "let x = 1\nlet y = 2" "," = false ∧
    attemptCodeFormatFix "let x = 1\nlet y = 2" = "let x = 1\nlet y = 2" :=
  ⟨by decide, formatFix_noop_without_comma "let x = 1\nlet y = 2" (by decide)⟩

/-! ## Code-example mining (`extractCodeExamples`, lines 587–641, with its
context extraction, categorization and validity helpers) -/

/-- Model of `extractSmartContextBefore`'s `split(/[.!?]\s+/)`: a separator
is one sentence-ending punctuation character followed by a maximal nonempty
whitespace run.  The accumulator holds the current piece reversed. -/
def splitSentences : Nat → List Char → List Char → List (List Char)
  | 0, acc, _ => [acc.reverse]
  | _ + 1, acc, [] => [acc.reverse]
  | fuel + 1, acc, c :: rest =>
    if c = '.' || c = '!' || c = '?' then
      let ws := rest.takeWhile isWs
      if ws.isEmpty then splitSentences fuel (c :: acc) rest
      else acc.reverse :: splitSentences fuel [] (rest.drop ws.length)
    else splitSentences fuel (c :: acc) rest

/-- Model of the paragraph split `split(/\n\s*\n/)`: a separator is a newline
followed by whitespace up to (and including) the last newline of the run —
the backtracking of the greedy `\s*` before the mandatory final `\n`. -/
def splitParagraphs : Nat → List Char → List Char → List (List Char)
  | 0, acc, _ => [acc.reverse]
  | _ + 1, acc, [] => [acc.reverse]
  | fuel + 1, acc, c :: rest =>
    if c = '\n' then
      match lastNewlinePos (rest.takeWhile isWs) with
      | some k => acc.reverse :: splitParagraphs fuel [] (rest.drop (k + 1))
      | none => splitParagraphs fuel (c :: acc) rest
    else splitParagraphs fuel (c :: acc) rest

/-- The `join('. ')` of the sentence pieces. -/
def joinWithDotSpace : List (List Char) → List Char
  | [] => []
  | [s] => s
  | s :: rest => s ++ '.' :: ' ' :: joinWithDotSpace rest

/-- Model of `String.prototype.indexOf` for a pattern (`none` for the
JavaScript `-1`). -/
def findSubIdx : List Char → List Char → Option Nat
  | [], pat => if pat.isEmpty then some 0 else none
  | c :: rest, pat =>
    if pat.isPrefixOf (c :: rest) then some 0
    else (findSubIdx rest pat).map (fun n => n + 1)

/-- Model of `lastIndexOf(' ', bound)`: the last space index at most `bound`. -/
def lastSpacePosLE (cs : List Char) (bound : Nat) : Option Nat :=
  match (cs.take (bound + 1)).reverse.findIdx? (fun c => c = ' ') with
  | none => none
  | some j => some ((cs.take (bound + 1)).length - 1 - j)

/-- Model of `AppleSearchEngine.extractSmartContextBefore` (lines 697–726):
up to 200 characters before the block, preferring the last one or two
sentences, then the last paragraph when long enough, then the trimmed raw
window with leading non-word characters stripped. -/
def extractSmartContextBefore (content : String) (startIndex : Nat) : String :=
  let beforeText := (content.data.take startIndex).drop (startIndex - 200)
  let fallback :=
    let paragraphs := splitParagraphs (beforeText.length + 1) [] beforeText
    let finalText : String := ⟨(trimChars beforeText).dropWhile (fun c => !isWordChar c)⟩
    if paragraphs.length > 1 then
      let lastParagraph := trimChars (paragraphs.getLastD [])
      if lastParagraph.length ≥ 50 then ⟨lastParagraph⟩ else finalText
    else finalText
  let sentences := splitSentences (beforeText.length + 1) [] beforeText
  if sentences.length > 1 then
    let lastSentences := (sentences.drop (sentences.length - 2)).filter
      (fun s => (trimChars s).length > 10)
    if lastSentences.length > 0 then strTrim ⟨joinWithDotSpace lastSentences⟩
    else fallback
  else fallback

/-- Model of `AppleSearchEngine.extractSmartContextAfter` (lines 734–767):
up to 150 characters after the block, preferring the first sentence, then the
earliest structural break, then a word-boundary cutoff. -/
def extractSmartContextAfter (content : String) (endIndex : Nat) : String :=
  let afterText := (content.data.drop endIndex).take 150
  let prePunct := afterText.takeWhile (fun c => !(c = '.' || c = '!' || c = '?'))
  if prePunct.length < afterText.length then
    strTrim ⟨afterText.take (prePunct.length + 1)⟩
  else
    let breakPoints := ([findSubIdx afterText "\n\n".data,
        findSubIdx afterText "\n```".data,
        findSubIdx afterText "## ".data].filterMap id).filter (fun pos => pos > 0)
    match breakPoints.min? with
    | some breakPoint => strTrim ⟨afterText.take breakPoint⟩
    | none =>
      if afterText.length > 100 then
        match lastSpacePosLE afterText 100 with
        | some wordBreak =>
          if wordBreak > 50 then ⟨trimChars (afterText.take wordBreak) ++ "...".data⟩
          else strTrim ⟨afterText⟩
        | none => strTrim ⟨afterText⟩
      else strTrim ⟨afterText⟩

/-- One category test: does any of the (lower-case) literal alternatives
occur in the text?  Each regex of `categorizeCodeEnhanced` is an alternation
of literals tested with the `i` flag against the already lower-cased
combined text. -/
def anyTermMatches (allText : String) (terms : List String) : Bool :=
  terms.any (fun t => containsSub allText t)

/-- The ordered category rules of `categorizeCodeEnhanced` (lines 776–861),
first match wins. -/
def categoryRules : List (List String × String) :=
  [(["button", "toggle", "slider", "picker", "textfield", "securefield",
     "datepicker", "stepper"], "UI Controls"),
   (["navigation", "routing", "link", "sheet", "popover", "alert",
     "actionsheet", "tab", "sidebar"], "Navigation"),
   (["list", "table", "collection", "grid", "foreach", "section", "row",
     "cell"], "Lists & Collections"),
   (["@state", "@binding", "@observedobject", "@stateobject",
     "@environmentobject", "@published", "observable"], "State Management"),
   (["vstack", "hstack", "zstack", "grid", "geometry", "alignment",
     "padding", "frame", "spacing"], "Layout"),
   (["animation", "transition", "spring", "easing", "keyframe",
     "withanimation", "scaleeffect", "rotationeffect"], "Animations"),
   (["urlsession", "fetch", "download", "upload", "json", "codable", "api",
     "request", "response"], "Networking"),
   (["coredata", "fetch", "predicate", "managedobject", "persistent",
     "@fetchrequest", "swiftdata"], "Data Persistence"),
   (["path", "shape", "canvas", "metal", "scenekit", "realitykit", "arkit",
     "vision", "core graphics"], "Graphics & AR"),
   (["watchos", "complication", "clockkit", "digital crown"], "watchOS"),
   (["visionos", "spatial", "immersive", "window", "volume"], "visionOS"),
   (["tvos", "focus", "remote", "directional"], "tvOS"),
   (["notification", "location", "camera", "contacts", "calendar", "health",
     "siri", "widget"], "System Integration"),
   (["test", "mock", "preview", "debug", "assert", "xctassert"], "Testing"),
   (["async", "await", "task", "actor", "concurrent", "performance",
     "background", "queue"], "Concurrency"),
   (["accessibility", "voiceover", "dynamic type", "reduce motion"],
    "Accessibility")]

/-- Model of `AppleSearchEngine.categorizeCodeEnhanced`. -/
def categorizeCodeEnhanced (code title context : String) : String :=
  let allText := strToLower code ++ " " ++ strToLower title ++ " " ++ strToLower context
  match categoryRules.find? (fun rule => anyTermMatches allText rule.1) with
  | some rule => rule.2
  | none => "General"

/-- Match of `^(class|struct|enum|protocol)\s+\w+.*$` against a trimmed
block: a type keyword, mandatory whitespace (which may include newlines),
one word, then no newline up to the end of input (`.` does not match
newlines and, without the `m` flag, `$` only matches at the end). -/
def matchesBareTypeDecl (t : List Char) : Bool :=
  match ["class".data, "struct".data, "enum".data, "protocol".data].find?
      (fun kw => kw.isPrefixOf t) with
  | none => false
  | some kw =>
    let r1 := t.drop kw.length
    if (r1.takeWhile isWs).isEmpty then false
    else
      let r2 := r1.dropWhile isWs
      let w := r2.takeWhile isWordChar
      if w.isEmpty then false
      else !(r2.drop w.length).contains '\n'

/-- Match of `^import\s+\w+$` against a trimmed block. -/
def matchesBareImport (t : List Char) : Bool :=
  if "import".data.isPrefixOf t then
    let r1 := t.drop 6
    if (r1.takeWhile isWs).isEmpty then false
    else
      let r2 := r1.dropWhile isWs
      let w := r2.takeWhile isWordChar
      !w.isEmpty && (r2.drop w.length).isEmpty
  else false

/-- Match of `^(let|var)\s+\w+` against a trimmed block. -/
def matchesVarDecl (t : List Char) : Bool :=
  match ["let".data, "var".data].find? (fun kw => kw.isPrefixOf t) with
  | none => false
  | some kw =>
    let r1 := t.drop kw.length
    if (r1.takeWhile isWs).isEmpty then false
    else !((r1.dropWhile isWs).takeWhile isWordChar).isEmpty

/-- Count of `/,\s*}/g` matches (repair artifacts). -/
def countCommaCloseBrace : Nat → List Char → Nat
  | 0, _ => 0
  | _ + 1, [] => 0
  | fuel + 1, c :: rest =>
    if c = ',' then
      match rest.dropWhile isWs with
      | '\x7d' :: rest3 => 1 + countCommaCloseBrace fuel rest3
      | _ => countCommaCloseBrace fuel rest
    else countCommaCloseBrace fuel rest

/-- Count of `/{\s*,/g` matches (repair artifacts). -/
def countOpenBraceComma : Nat → List Char → Nat
  | 0, _ => 0
  | _ + 1, [] => 0
  | fuel + 1, c :: rest =>
    if c = '\x7b' then
      match rest.dropWhile isWs with
      | ',' :: rest3 => 1 + countOpenBraceComma fuel rest3
      | _ => countOpenBraceComma fuel rest
    else countOpenBraceComma fuel rest

/-- Model of `AppleSearchEngine.isValidCodeExample` (lines 869–891). -/
def isValidCodeExample (code context : String) : Bool :=
  let t := trimChars code.data
  if t.length < 10 then false
  else if matchesBareTypeDecl t && !containsSub code "\x7b" then false
  else if matchesBareImport t then false
  else if matchesVarDecl t && lineCount code = 1 && context.length < 20 then false
  else
    let artifactCount := countCommaCloseBrace (code.data.length + 1) code.data +
      countOpenBraceComma (code.data.length + 1) code.data
    !((artifactCount : ℚ) > (lineCount code : ℚ) * 0.3)

/-- A stored document as read back by `getDocument` (the optional
`type`/`description` columns are not consulted by the miner and are elided). -/
structure Document where
  id : String
  title : String
  url : String
  content : String

/-- One mined code example (the record pushed by `extractCodeExamples`). -/
structure CodeExample where
  id : String
  documentId : String
  documentTitle : String
  documentUrl : String
  code : String
  originalCode : String
  language : String
  lines : Nat
  contextBefore : String
  contextAfter : String
  purpose : String
  complexity : String
  category : String
  hasComments : Bool
  usesSystemAPI : List String
deriving DecidableEq, Repr

/-- Attempt to match the opener `` ```swift\s*\n `` at the head of `cs`:
return the remainder after the opener and the number of characters consumed.
The greedy `\s*` backtracks so that the single mandatory `\n` it leaves is
the last newline of the maximal whitespace run; no newline in the run means
no match at this position. -/
def swiftOpenerCheck (cs : List Char) : Option (List Char × Nat) :=
  if "```swift".data.isPrefixOf cs then
    match lastNewlinePos ((cs.drop 8).takeWhile isWs) with
    | none => none
    | some k => some ((cs.drop 8).drop (k + 1), 8 + k + 1)
  else none

/-- Index of the earliest occurrence of `` ``` `` — the closing fence that
the lazy block body `[\s\S]*?` stops at. -/
def findTripleBacktick : List Char → Option Nat
  | [] => none
  | c :: rest =>
    if "```".data.isPrefixOf (c :: rest) then some 0
    else (findTripleBacktick rest).map (fun n => n + 1)

/-- The loop body of `extractCodeExamples` for one regex match: build the
example record, or `none` when the validity filter rejects the block.  The
captured group runs to the closing fence; the whitespace the `\n?\s*` tail
absorbs is removed by the `trim()` either way. -/
def mkCodeExample (doc : Document) (matchStart endIdx : Nat)
    (rawCode : List Char) : Option CodeExample :=
  let code := strTrim ⟨rawCode⟩
  let contextBefore := extractSmartContextBefore doc.content matchStart
  let contextAfter := extractSmartContextAfter doc.content endIdx
  let category := categorizeCodeEnhanced code doc.title
    (contextBefore ++ " " ++ contextAfter)
  let fixedCode := attemptCodeFormatFix code
  if !isValidCodeExample fixedCode (contextBefore ++ " " ++ contextAfter) then none
  else
    let actualLines := lineCount fixedCode
    some {
      id := doc.id ++ "_" ++ toString matchStart,
      documentId := doc.id,
      documentTitle := doc.title,
      documentUrl := doc.url,
      code := fixedCode,
      originalCode := code,
      language := "swift",
      lines := actualLines,
      contextBefore := contextBefore,
      contextAfter := contextAfter,
      purpose := if containsSub contextBefore "example" then "Example" else "Usage",
      complexity := if actualLines ≤ 3 then "Simple"
        else if actualLines ≤ 10 then "Medium" else "Complex",
      category := category,
      hasComments := containsSub fixedCode "//",
      usesSystemAPI := if containsSub fixedCode "Button" || containsSub fixedCode "Text"
          || containsSub fixedCode "List" then ["SwiftUI"] else [] }

/-- The global-regex loop of `extractCodeExamples`: scan for the next
position where the whole swift-fence pattern matches; when an opener matches
but no closing fence follows, the pattern cannot match at any later position
either and the scan ends. -/
def extractLoop (doc : Document) : Nat → List Char → Nat → List CodeExample
  | 0, _, _ => []
  | _ + 1, [], _ => []
  | fuel + 1, c :: rest, absPos =>
    match swiftOpenerCheck (c :: rest) with
    | some (groupRest, consumed) =>
      match findTripleBacktick groupRest with
      | none => []
      | some q =>
        let endIdx := absPos + consumed + q + 3
        match mkCodeExample doc absPos endIdx (groupRest.take q) with
        | some e => e :: extractLoop doc fuel (groupRest.drop (q + 3)) endIdx
        | none => extractLoop doc fuel (groupRest.drop (q + 3)) endIdx
    | none => extractLoop doc fuel rest (absPos + 1)

/-- Model of `AppleSearchEngine.extractCodeExamples`: one example per valid
`` ```swift `` fenced block, in document order. -/
def extractCodeExamples (doc : Document) : List CodeExample :=
  extractLoop doc (doc.content.data.length + 1) doc.content.data 0

/-- Does the swift-fence opener `` ```swift\s*\n `` match at position `i` of
the document body?  Exactly the positions at which the global regex of the
miner can start a match. -/
def swiftOpenerAt (content : List Char) (i : Nat) : Bool :=
  (swiftOpenerCheck (content.drop i)).isSome

/-- Every successfully built example record carries language `"swift"`. -/
theorem mkCodeExample_language (doc : Document) (a b : Nat) (raw : List Char)
    (e : CodeExample) (h : mkCodeExample doc a b raw = some e) :
    e.language = "swift" := by
  simp only [mkCodeExample] at h
  split at h
  · exact absurd h (by simp)
  · cases h
    rfl

/-- Every successfully built example record carries the match position of its
block in its id. -/
theorem mkCodeExample_id (doc : Document) (a b : Nat) (raw : List Char)
    (e : CodeExample) (h : mkCodeExample doc a b raw = some e) :
    e.id = doc.id ++ "_" ++ toString a := by
  simp only [mkCodeExample] at h
  split at h
  · exact absurd h (by simp)
  · cases h
    rfl

/-- The remainder a successful opener match leaves is the scanned suffix
dropped by the number of consumed characters. -/
theorem swiftOpenerCheck_drop (cs g : List Char) (n : Nat)
    (h : swiftOpenerCheck cs = some (g, n)) : g = cs.drop n := by
  rw [swiftOpenerCheck] at h
  split at h
  · cases hnl : lastNewlinePos ((cs.drop 8).takeWhile isWs) with
    | none => rw [hnl] at h; cases h
    | some k =>
      rw [hnl] at h
      cases h
      rw [List.drop_drop]
      congr 1
  · cases h

/-- Attribution invariant of the extraction loop: when scanning the suffix of
the document body starting at `pos`, every emitted example carries language
`"swift"` and an id naming a position of the body at which the
`` ```swift\s*\n `` opener matches. -/
theorem extractLoop_attribution (doc : Document) (fuel : Nat) (cs : List Char)
    (pos : Nat) (hcs : cs = doc.content.data.drop pos) :
    ∀ ex ∈ extractLoop doc fuel cs pos, ex.language = "swift" ∧
      ∃ i, swiftOpenerAt doc.content.data i = true ∧
        ex.id = doc.id ++ "_" ++ toString i := by
  induction fuel generalizing cs pos with
  | zero => intro ex hex; simp [extractLoop] at hex
  | succ fuel ih =>
    intro ex hex
    cases cs with
    | nil => simp [extractLoop] at hex
    | cons c rest =>
      rw [extractLoop] at hex
      cases hop : swiftOpenerCheck (c :: rest) with
      | none =>
        rw [hop] at hex
        have hrest : rest = doc.content.data.drop (pos + 1) := by
          have h1 : doc.content.data.drop (pos + 1) =
              (doc.content.data.drop pos).drop 1 := by
            rw [List.drop_drop]
          rw [h1, ← hcs]
          rfl
        exact ih rest (pos + 1) hrest ex hex
      | some pr =>
        obtain ⟨groupRest, consumed⟩ := pr
        have hopAt : swiftOpenerAt doc.content.data pos = true := by
          rw [swiftOpenerAt, ← hcs, hop]
          rfl
        have hg : groupRest = (c :: rest).drop consumed :=
          swiftOpenerCheck_drop _ _ _ hop
        rw [hop] at hex
        simp only [] at hex
        cases hcl : findTripleBacktick groupRest with
        | none => rw [hcl] at hex; simp at hex
        | some q =>
          rw [hcl] at hex
          simp only [] at hex
          have hnext : groupRest.drop (q + 3) =
              doc.content.data.drop (pos + consumed + q + 3) := by
            rw [hg, hcs, List.drop_drop, List.drop_drop]
            congr 1
            omega
          cases hmk : mkCodeExample doc pos (pos + consumed + q + 3) (groupRest.take q) with
          | none =>
            rw [hmk] at hex
            exact ih _ _ hnext ex hex
          | some e =>
            rw [hmk] at hex
            rcases List.mem_cons.mp hex with h1 | h1
            · subst h1
              exact ⟨mkCodeExample_language doc pos _ _ ex hmk,
                pos, hopAt, mkCodeExample_id doc pos _ _ ex hmk⟩
            · exact ih _ _ hnext ex h1

/-- With no `` ```swift `` occurrence in the scanned suffix, the loop finds
no opener and produces nothing. -/
theorem extractLoop_no_opener (doc : Document) (fuel : Nat) (cs : List Char)
    (pos : Nat) (h : containsSubAux cs "```swift".data = false) :
    extractLoop doc fuel cs pos = [] := by
  induction fuel generalizing cs pos with
  | zero => rfl
  | succ fuel ih =>
    cases cs with
    | nil => rfl
    | cons c rest =>
      rw [containsSubAux] at h
      have h2 := Bool.or_eq_false_iff.mp h
      rw [extractLoop]
      have hop : swiftOpenerCheck (c :: rest) = none := by
        rw [swiftOpenerCheck, if_neg]
        simp [h2.1]
      rw [hop]
      exact ih rest (pos + 1) h2.2

/-- C10: the code-example miner only considers fenced blocks whose opening
fence is tagged `swift`: every emitted example has language `"swift"` and is
attributed by its id to a position of the document body at which the
`` ```swift\s*\n `` opener matches — so a fenced block whose opening fence
has no language tag or a tag other than `swift` produces no CodeExample (no
example can point at it); in particular a document with no swift fence at
all yields no examples. -/
theorem extractCodeExamples_swift_only (doc : Document) :
    (∀ ex ∈ extractCodeExamples doc, ex.language = "swift" ∧
      ∃ i, swiftOpenerAt doc.content.data i = true ∧
        ex.id = doc.id ++ "_" ++ toString i) ∧
    (containsSub doc.content "```swift" = false → extractCodeExamples doc = []) := by
  constructor
  · exact extractLoop_attribution doc _ _ 0 (by rw [List.drop_zero])
  · intro h
    exact extractLoop_no_opener doc _ _ 0 h

/-- Witness for C10: a document containing only a python-tagged fence yields
no examples. -/
theorem extractCodeExamples_swift_only_witness :
    containsSub "```python\nx = 1\n```" "```swift" = false ∧
    extractCodeExamples ⟨"doc-2", "T", "u", "```python\nx = 1\n```"⟩ = [] :=
  ⟨by decide,
   (extractCodeExamples_swift_only ⟨"doc-2", "T", "u", "```python\nx = 1\n```"⟩).2
     (by decide)⟩

end AppleDocs
